import Mathlib

/-
Verification of the migrator engine (hasirciogluhq/migrator).

Shallow embedding of:
  internal/tracker   (tracker.go)        : Tracker.ApplyMigration, IsApplied, ...
  internal/validator (validator.go)      : ValidateExistingMigrations, GetMigrationFiles,
                                           FindNewMigrations, MigrationFile
  internal/shadowdb  (shadowdb.go)       : TestNewMigrations, setupShadowDatabase,
                                           applyExistingMigrationsToShadow,
                                           testMigrationsOnShadow, dropDatabaseIfExists,
                                           EnsureCleanup
  migrator.go                            : Options, NewWithOptions, Migrate,
                                           applyPendingMigrations

Database effects are modelled by explicit state passing; SQL script execution is a
parameter (`ExecFn`); external failure points (admin connections, CREATE/DROP
DATABASE, pg_terminate_backend, current_database()) are an oracle (`ShadowEnv`);
the observable side-effect sequence of the shadow machinery is an event trace.
-/

namespace Migrator

/-- Execution semantics of a SQL script body: given the script text and the current
schema objects of the connected database, either fail with the database's error
message or return the updated schema objects.  This parameter stands for the SQL
engine behind `tx.ExecContext(ctx, content)` in `Tracker.ApplyMigration`. -/
def ExecFn : Type := String → List String → Except String (List String)

/-- State of one database: whether the `_go_migrations` tracking table exists
(`EnsureMigrationsTable`), the tracking rows in `applied_at` (insertion) order,
and the schema objects created by migration scripts. -/
structure DBState where
  hasTable : Bool
  applied : List String
  schema : List String
deriving DecidableEq, Repr

/-- A migration file record: file name and literal content
(`validator.MigrationFile`, validator.go lines 109-114). -/
structure MigrationFile where
  name : String
  content : String
deriving DecidableEq, Repr

/-- Embedding of `Tracker.ApplyMigration` (tracker.go lines 382-423): begin a
read-committed transaction, execute the full script body, INSERT the tracking
row (which fails when the tracking table is absent or the UNIQUE constraint on
`name` is violated), then commit.  Each failure before the commit triggers the
deferred rollback, so the caller observes the pre-call state.  The result pairs
the returned error (wrapped exactly as the Go code wraps it) with the state of
the database after the call returns. -/
def applyMigration (exec : ExecFn) (s : DBState) (nm ct : String) :
    Except String Unit × DBState :=
  match exec ct s.schema with
  | .error e => (.error ("failed to execute migration: " ++ e), s)
  | .ok sch2 =>
    if s.hasTable = false then
      (.error ("failed to record migration: relation does not exist"), s)
    else if nm ∈ s.applied then
      (.error ("failed to record migration: duplicate key value violates unique constraint"), s)
    else
      (.ok (), { hasTable := true, applied := s.applied ++ [nm], schema := sch2 })

/-- A tiny concrete SQL semantics used only to instantiate theorems on concrete
inputs: the body "FAIL" raises a syntax error, any other body creates one schema
object named by the body. -/
def execSimple : ExecFn := fun ct schema =>
  if ct = "FAIL" then .error "syntax error" else .ok (schema ++ [ct])

/-- The filesystem visible to the engine: a finite map from directory path to the
directory's raw entries `(file name, file content)`, in an arbitrary on-disk
order. -/
def FileSys : Type := List (String × List (String × String))

/-- Directory lookup (the `os.ReadDir` access path; `none` models a listing
error for a missing directory). -/
def lookupDir : FileSys → String → Option (List (String × String))
  | [], _ => none
  | (p, l) :: rest, q => if p = q then some l else lookupDir rest q

/-- Entry lookup inside one directory listing (the `os.ReadFile` access path). -/
def lookupEntry : List (String × String) → String → Option String
  | [], _ => none
  | (k, v) :: rest, q => if k = q then some v else lookupEntry rest q

/-- Lexicographic comparison of character lists by code point, the order Go's
`os.ReadDir` sorts filenames in. -/
def strLeList : List Char → List Char → Bool
  | [], _ => true
  | _ :: _, [] => false
  | c :: cs, d :: ds =>
    if c.val.toNat < d.val.toNat then true
    else if d.val.toNat < c.val.toNat then false
    else strLeList cs ds

/-- Lexicographic order on file names. -/
def nameLe (a b : String) : Bool := strLeList a.data b.data

/-- Check of `strings.HasSuffix(name, ".sql")`: the last four characters of the
name are `.sql`. -/
def endsWithSql (nm : String) : Bool :=
  decide (nm.data.drop (nm.data.length - 4) = '.' :: 's' :: 'q' :: 'l' :: [])

/-- Ordering of directory entries by file name. -/
def keyLe (a b : String × String) : Prop := nameLe a.1 b.1 = true

/-- Ordering of directory entries by file name, strict on the name; two entries
with distinct names compare strictly, which is all `eq_of_perm_of_sorted` needs
once names are known to be distinct. -/
def keyLtNe (a b : String × String) : Prop := nameLe a.1 b.1 = true ∧ a.1 ≠ b.1

instance : DecidableRel keyLe := fun a b => inferInstanceAs (Decidable (nameLe a.1 b.1 = true))

instance : IsTotal (String × String) keyLe := by
  constructor
  suffices h : ∀ xs ys, strLeList xs ys = true ∨ strLeList ys xs = true by
    intro a b
    exact h a.1.data b.1.data
  intro xs
  induction xs with
  | nil => intro ys; left; rfl
  | cons c cs ih =>
    intro ys
    cases ys with
    | nil => right; rfl
    | cons d ds =>
      by_cases h1 : c.val.toNat < d.val.toNat
      · left; simp [strLeList, h1]
      · by_cases h2 : d.val.toNat < c.val.toNat
        · right; simp [strLeList, h2]
        · rcases ih ds with h | h
          · left; simp [strLeList, h1, h2, h]
          · right; simp [strLeList, h1, h2, h]

instance : IsTrans (String × String) keyLe := by
  constructor
  suffices h : ∀ xs ys zs, strLeList xs ys = true → strLeList ys zs = true →
      strLeList xs zs = true by
    intro a b c hab hbc
    exact h a.1.data b.1.data c.1.data hab hbc
  intro xs
  induction xs with
  | nil => intro ys zs _ _; rfl
  | cons c cs ih =>
    intro ys zs hxy hyz
    cases ys with
    | nil => simp [strLeList] at hxy
    | cons d ds =>
      cases zs with
      | nil => simp [strLeList] at hyz
      | cons e es =>
        simp only [strLeList] at hxy hyz ⊢
        by_cases h1 : c.val.toNat < d.val.toNat
        · by_cases h2 : d.val.toNat < e.val.toNat
          · have h3 : c.val.toNat < e.val.toNat := by omega
            simp [h3]
          · rw [if_neg h2] at hyz
            by_cases h4 : e.val.toNat < d.val.toNat
            · rw [if_pos h4] at hyz
              exact absurd hyz (by simp)
            · have h3 : c.val.toNat < e.val.toNat := by omega
              simp [h3]
        · by_cases h2 : d.val.toNat < c.val.toNat
          · rw [if_neg h1, if_pos h2] at hxy
            exact absurd hxy (by simp)
          · rw [if_neg h1, if_neg h2] at hxy
            by_cases h3 : d.val.toNat < e.val.toNat
            · have h5 : c.val.toNat < e.val.toNat := by omega
              simp [h5]
            · rw [if_neg h3] at hyz
              by_cases h4 : e.val.toNat < d.val.toNat
              · rw [if_pos h4] at hyz
                exact absurd hyz (by simp)
              · rw [if_neg h4] at hyz
                have h5 : ¬ c.val.toNat < e.val.toNat := by omega
                have h6 : ¬ e.val.toNat < c.val.toNat := by omega
                rw [if_neg h5, if_neg h6]
                exact ih ds es hxy hyz

instance : IsAntisymm (String × String) keyLtNe := by
  constructor
  suffices h : ∀ xs ys, strLeList xs ys = true → strLeList ys xs = true → xs = ys by
    rintro a b ⟨hab, hne⟩ ⟨hba, _⟩
    exact absurd (String.ext (h a.1.data b.1.data hab hba)) hne
  intro xs
  induction xs with
  | nil =>
    intro ys _ hyx
    cases ys with
    | nil => rfl
    | cons d ds => simp [strLeList] at hyx
  | cons c cs ih =>
    intro ys hxy hyx
    cases ys with
    | nil => simp [strLeList] at hxy
    | cons d ds =>
      simp only [strLeList] at hxy hyx
      by_cases h1 : c.val.toNat < d.val.toNat
      · have h2 : ¬ d.val.toNat < c.val.toNat := by omega
        simp [h1, h2] at hyx
      · by_cases h2 : d.val.toNat < c.val.toNat
        · simp [h1, h2] at hxy
        · have hcd : c = d := Char.ext (by
            have h3 : c.val.toNat = d.val.toNat := by omega
            exact UInt32.ext h3)
          simp [h1, h2] at hxy hyx
          rw [hcd, ih ds hxy hyx]

/-- Go's `os.ReadDir` is specified to return the directory entries sorted by
filename; the raw on-disk order is sorted before the engine sees it. -/
def sortByName (l : List (String × String)) : List (String × String) :=
  List.insertionSort keyLe l

/-- Directory listing as the engine observes it: `os.ReadDir` output (sorted by
name), or `none` on a listing error. -/
def readDir (fs : FileSys) (path : String) : Option (List (String × String)) :=
  (lookupDir fs path).map sortByName

/-- File read `os.ReadFile(dir + "/" + name)` used by
`applyExistingMigrationsToShadow` (shadowdb.go line 151). -/
def readMigrationFile (fs : FileSys) (dirPath nm : String) : Option String :=
  match lookupDir fs dirPath with
  | none => none
  | some entries => lookupEntry entries nm

/-- The message `ValidateExistingMigrations` builds when applied migrations are
missing from the filesystem (validator.go lines 60-63); Go's `%v` on a string
slice prints the names space-separated between brackets. -/
def critMsg (missing : List String) : String :=
  "critical: " ++ toString missing.length ++
    " applied migrations are missing from filesystem: [" ++
    String.intercalate " " missing ++ "]"

/-- Embedding of `Validator.ValidateExistingMigrations` (validator.go lines
29-67): list the directory, build the set of on-disk names with the `.sql`
suffix, and fail with the criticality message listing every applied name absent
from that set. -/
def validateExistingMigrations (fs : FileSys) (mp : String) (applied : List String) :
    Except String Unit :=
  match readDir fs mp with
  | none => .error "failed to read migrations directory: open error"
  | some files =>
    let fsFiles := (files.filter (fun f => endsWithSql f.1)).map Prod.fst
    let missing := applied.filter (fun a => decide (a ∉ fsFiles))
    if missing.isEmpty then .ok ()
    else .error (critMsg missing)

/-- Embedding of `Validator.GetMigrationFiles` (validator.go lines 70-92): list
the directory, keep the entries whose name ends in `.sql`, and read each into a
`MigrationFile` with the literal file content. -/
def getMigrationFiles (fs : FileSys) (mp : String) : Except String (List MigrationFile) :=
  match readDir fs mp with
  | none => .error "failed to read migrations directory: open error"
  | some files =>
    .ok ((files.filter (fun f => endsWithSql f.1)).map (fun f => ⟨f.1, f.2⟩))

/-- Embedding of `validator.FindNewMigrations` (validator.go lines 127-142):
keep, in input order, the migrations whose `IsApplied` check (COUNT over the
tracking table, tracker.go lines 332-342) returns false. -/
def findNewMigrations (applied : List String) (ms : List MigrationFile) : List MigrationFile :=
  ms.filter (fun m => decide (m.name ∉ applied))

/-- Observable actions of the shadow-database machinery, in program order. -/
inductive Event where
  | getDBName
  | connectAdmin
  | terminateConns (db : String)
  | dropDB (db : String)
  | createDB (db : String)
  | connectShadow (db : String)
  | closeShadow
  | replayApply (nm : String)
  | testApply (nm : String)
deriving DecidableEq, Repr

/-- Behaviour of the pieces of the environment the shadow machinery talks to:
the `SELECT current_database()` result, and whether the administrative
connection, `pg_terminate_backend`, `DROP DATABASE`, `CREATE DATABASE` and the
connection to the fresh shadow database succeed.  `leftoverShadowAtEnd` is the
`pg_database` existence check made by `EnsureCleanup`. -/
structure ShadowEnv where
  currentDB : Except String String
  connectAdminOk : Bool
  terminateOk : Bool
  dropOk : Bool
  createOk : Bool
  connectShadowOk : Bool
  leftoverShadowAtEnd : Bool
deriving Repr

/-- Embedding of `setupShadowDatabase` (shadowdb.go lines 91-134): connect to the
maintenance database, run `dropDatabaseIfExists` (which first attempts
`pg_terminate_backend` and only prints a warning when that attempt fails,
shadowdb.go lines 253-262, then attempts the DROP), create the shadow database,
and connect to it.  Note that when the connection to the freshly created shadow
database fails, the function returns the error directly without dropping the
database it just created (shadowdb.go lines 113-117). -/
def setupShadowDatabase (sh : ShadowEnv) (shadowName : String) :
    Except String Unit × List Event :=
  if sh.connectAdminOk = false then
    (.error "failed to connect to postgres database: open error", [Event.connectAdmin])
  else
    let evs0 := [Event.connectAdmin, Event.terminateConns shadowName, Event.dropDB shadowName]
    if sh.dropOk = false then
      (.error ("failed to drop existing shadow database: failed to drop database " ++ shadowName),
       evs0)
    else
      let evs1 := evs0 ++ [Event.createDB shadowName]
      if sh.createOk = false then
        (.error ("failed to create shadow database: failed to create database " ++ shadowName),
         evs1)
      else
        let evs2 := evs1 ++ [Event.connectShadow shadowName]
        if sh.connectShadowOk = false then
          (.error "failed to connect to shadow database: open error", evs2)
        else (.ok (), evs2)

/-- The deferred `cleanup` closure returned by `setupShadowDatabase` (shadowdb.go
lines 120-131): close the shadow connection, then `dropDatabaseIfExists`
(terminate-connections attempt followed by the DROP attempt; failures only
produce warnings). -/
def cleanupEvents (shadowName : String) : List Event :=
  [Event.closeShadow, Event.terminateConns shadowName, Event.dropDB shadowName]

/-- Loop of `applyExistingMigrationsToShadow` (shadowdb.go lines 149-159): for
each applied production migration, read its file from the directory named by the
`MIGRATIONS_PATH` environment variable and apply it to the shadow database via
`Tracker.ApplyMigration`. -/
def replayGo (exec : ExecFn) (fs : FileSys) (mp : String) :
    List String → DBState → Except String DBState × List Event
  | [], st => (.ok st, [])
  | nm :: rest, st =>
    match readMigrationFile fs mp nm with
    | none => (.error ("failed to read migration " ++ nm ++ ": open error"), [])
    | some ct =>
      match applyMigration exec st nm ct with
      | (.error e, _) =>
        (.error ("failed to apply existing migration " ++ nm ++ " to shadow: " ++ e),
         [Event.replayApply nm])
      | (.ok _, st2) =>
        let r := replayGo exec fs mp rest st2
        (r.1, Event.replayApply nm :: r.2)

/-- Loop of `testMigrationsOnShadow` (shadowdb.go lines 165-179): apply each new
migration to the shadow database; the first failure aborts with the error
naming the offending migration. -/
def testGo (exec : ExecFn) :
    List MigrationFile → DBState → Except String DBState × List Event
  | [], st => (.ok st, [])
  | m :: rest, st =>
    match applyMigration exec st m.name m.content with
    | (.error e, _) =>
      (.error ("migration " ++ m.name ++ " failed on shadow database: " ++ e),
       [Event.testApply m.name])
    | (.ok _, st2) =>
      let r := testGo exec rest st2
      (r.1, Event.testApply m.name :: r.2)

/-- The process environment read by the engine through `os.Getenv`. -/
structure Env where
  migrationsPathEnv : String
  databaseURLEnv : String
deriving DecidableEq, Repr

/-- Embedding of `Manager.TestNewMigrations` together with its callees
(shadowdb.go lines 47-179).  With no new migrations it returns immediately
(lines 48-51).  Otherwise it queries `current_database()`, derives the shadow
name with the fixed `_gi_mig_shadow_db` suffix, provisions the shadow database,
creates the shadow tracking table on the fresh database, replays the applied
production migrations (reading their bodies from the directory named by the
`MIGRATIONS_PATH` environment variable, defaulting to `./migrations`,
shadowdb.go lines 143-147), and tests the new migrations; once provisioning has
succeeded the deferred cleanup runs on every exit path.  The production
database is only read (its applied names); it is never written. -/
def testNewMigrations (exec : ExecFn) (env : Env) (fs : FileSys) (sh : ShadowEnv)
    (prodApplied : List String) (newMs : List MigrationFile) :
    Except String Unit × List Event :=
  if newMs.length = 0 then (.ok (), [])
  else
    match sh.currentDB with
    | .error e => (.error ("failed to get current database name: " ++ e), [Event.getDBName])
    | .ok dbName =>
      let shadowName := dbName ++ "_gi_mig_shadow_db"
      match setupShadowDatabase sh shadowName with
      | (.error e, evs) =>
        (.error ("failed to setup shadow database: " ++ e), Event.getDBName :: evs)
      | (.ok _, evs) =>
        let mp := if env.migrationsPathEnv = "" then "./migrations" else env.migrationsPathEnv
        let st0 : DBState := ⟨true, [], []⟩
        match replayGo exec fs mp prodApplied st0 with
        | (.error e, revs) =>
          (.error ("failed to apply existing migrations to shadow: " ++ e),
           Event.getDBName :: evs ++ revs ++ cleanupEvents shadowName)
        | (.ok st1, revs) =>
          match testGo exec newMs st1 with
          | (.error e, tevs) =>
            (.error ("failed to test migrations on shadow: " ++ e),
             Event.getDBName :: evs ++ revs ++ tevs ++ cleanupEvents shadowName)
          | (.ok _, tevs) =>
            (.ok (), Event.getDBName :: evs ++ revs ++ tevs ++ cleanupEvents shadowName)

/-- Embedding of `Migrator.applyPendingMigrations` (migrator.go lines 263-291):
walk the full file list in order, re-query `IsApplied` for each migration
against the current database state, skip it when the check returns true, and
otherwise apply it through `Tracker.ApplyMigration` (the per-migration timeout
context of `applyMigrationWithTimeout` carries no state).  The first failure
aborts the batch; the returned state is the database state at that point. -/
def applyPendingMigrations (exec : ExecFn) :
    DBState → List MigrationFile → Except String Unit × DBState
  | s, [] => (.ok (), s)
  | s, m :: rest =>
    if m.name ∈ s.applied then applyPendingMigrations exec s rest
    else
      match applyMigration exec s m.name m.content with
      | (.error e, s2) => (.error ("failed to apply migration " ++ m.name ++ ": " ++ e), s2)
      | (.ok _, s2) => applyPendingMigrations exec s2 rest

/-- Specification device for the production loop: the migration names the loop
applies, re-checking applied-ness against the growing applied set at each step
exactly as `applyPendingMigrations` does. -/
def pendingLoopSpec : List String → List MigrationFile → List String
  | _, [] => []
  | applied, m :: rest =>
    if m.name ∈ applied then pendingLoopSpec applied rest
    else m.name :: pendingLoopSpec (applied ++ [m.name]) rest

/-- Specification device for the validator: the applied names that have no
on-disk `.sql` file of that exact name in the raw directory listing. -/
def missingOf (raw : List (String × String)) (applied : List String) : List String :=
  applied.filter (fun a => !(endsWithSql a && decide (a ∈ raw.map Prod.fst)))

/-- Trace property: every CREATE DATABASE event is followed, later in the trace,
by a DROP DATABASE attempt on the same database. -/
def everyCreateDropped : List Event → Bool
  | [] => true
  | Event.createDB n :: rest =>
    if Event.dropDB n ∈ rest then everyCreateDropped rest else false
  | _ :: rest => everyCreateDropped rest

/-- Classification of the events that replay an existing migration or test a
new one on the shadow database. -/
def isReplayOrTest : Event → Bool
  | Event.replayApply _ => true
  | Event.testApply _ => true
  | _ => false

/-- Constructor options (`Options`, migrator.go lines 127-140).  `skipShadowDB`
is declared by the source but never consulted by `NewWithOptions` or
`Migrate`. -/
structure Options where
  migrationsPath : String
  databaseURL : String
  skipShadowDB : Bool
deriving DecidableEq, Repr

/-- Configuration a constructed `Migrator` carries: the resolved migrations
path and, when a database URL was resolved, the shadow manager
(`shadowURL = some url` stands for `shadowManager != nil`). -/
structure MigratorCfg where
  migrationsPath : String
  shadowURL : Option String
deriving DecidableEq, Repr

/-- Embedding of `NewWithOptions` (migrator.go lines 152-183): the migrations
path comes from the options, else the `MIGRATIONS_PATH` environment variable,
else `./migrations`; the shadow database URL comes from the options, else the
`DATABASE_URL` environment variable, and the shadow manager is initialized only
when the resolved URL is non-empty. -/
def newWithOptions (opts : Options) (env : Env) : MigratorCfg :=
  let mp :=
    if opts.migrationsPath = "" then
      (if env.migrationsPathEnv = "" then "./migrations" else env.migrationsPathEnv)
    else opts.migrationsPath
  let du := if opts.databaseURL = "" then env.databaseURLEnv else opts.databaseURL
  { migrationsPath := mp, shadowURL := if du = "" then none else some du }

/-- Event footprint of `Manager.EnsureCleanup` (shadowdb.go lines 182-219):
query `current_database()` when the manager has not cached it, connect to the
maintenance database, and when the `pg_database` existence check reports a
leftover shadow database, drop it (terminate-connections attempt first).
`Migrate` only warns on its error, so the footprint is all that matters. -/
def ensureCleanupCore (sh : ShadowEnv) (nm : String) : List Event :=
  Event.connectAdmin ::
    (if sh.connectAdminOk && sh.leftoverShadowAtEnd then
      [Event.terminateConns nm, Event.dropDB nm]
    else [])

/-- Events of `EnsureCleanup`, with `knownName = some nm` when
`TestNewMigrations` already cached the shadow database name. -/
def ensureCleanupEvents (sh : ShadowEnv) (knownName : Option String) : List Event :=
  match knownName with
  | some nm => ensureCleanupCore sh nm
  | none =>
    Event.getDBName ::
      (match sh.currentDB with
       | .error _ => []
       | .ok n => ensureCleanupCore sh (n ++ "_gi_mig_shadow_db"))

/-- Embedding of `Migrator.Migrate` (migrator.go lines 197-260).
Step 1 ensures the tracking table; step 2 validates the applied migrations
against the filesystem; step 3 loads the migration files; step 4 computes the
not-yet-applied subset; step 5, when that subset is non-empty, lazily falls back
to the `DATABASE_URL` environment variable if no shadow manager was configured
(skipping the shadow test with a warning when both are absent) and runs the
shadow test; step 6 applies the pending migrations to production; step 7 runs
the final best-effort shadow cleanup, whose failure is only warned.  The result
carries the returned error, the production database state after the call, and
the shadow-side event trace. -/
def migrate (exec : ExecFn) (cfg : MigratorCfg) (env : Env) (fs : FileSys) (sh : ShadowEnv)
    (prod : DBState) : Except String Unit × DBState × List Event :=
  let s1 : DBState := { prod with hasTable := true }
  match validateExistingMigrations fs cfg.migrationsPath s1.applied with
  | .error e => (.error ("migration validation failed: " ++ e), s1, [])
  | .ok _ =>
    match getMigrationFiles fs cfg.migrationsPath with
    | .error e => (.error ("failed to get migration files: " ++ e), s1, [])
    | .ok files =>
      let newMs := findNewMigrations s1.applied files
      let present := cfg.shadowURL.isSome ||
        (decide (newMs ≠ []) && decide (env.databaseURLEnv ≠ ""))
      let runTest := decide (newMs ≠ []) && present
      match (if runTest = true then testNewMigrations exec env fs sh s1.applied newMs
             else (.ok (), [])) with
      | (.error e, tr) => (.error ("shadow database test failed: " ++ e), s1, tr)
      | (.ok _, tr) =>
        match applyPendingMigrations exec s1 files with
        | (.error e, s6) => (.error ("failed to apply migrations: " ++ e), s6, tr)
        | (.ok _, s6) =>
          let knownName :=
            if runTest = true then
              match sh.currentDB with
              | .ok n => some (n ++ "_gi_mig_shadow_db")
              | .error _ => none
            else none
          let tr7 := if present = true then tr ++ ensureCleanupEvents sh knownName else tr
          (.ok (), s6, tr7)

/-- Concrete directory used to instantiate theorems: the migrations directory
`m` listed in a non-lexicographic on-disk order, with one non-SQL entry. -/
def fsDemo : FileSys :=
  [("m", [("002_b.sql", "B"), ("001_a.sql", "A"), ("README.md", "doc")])]

/-- Concrete directory whose second migration script fails to execute. -/
def fsFail : FileSys := [("m", [("001_a.sql", "A"), ("002_b.sql", "FAIL")])]

/-- Concrete process environment pointing at the demo directory. -/
def envM : Env := ⟨"m", ""⟩

/-- Concrete environment where every shadow-side operation succeeds. -/
def shOk : ShadowEnv := ⟨.ok "pdb", true, true, true, true, true, false⟩

/-- Concrete environment where terminating connections to the stale shadow
database fails and everything else succeeds. -/
def shTermFail : ShadowEnv := ⟨.ok "pdb", true, false, true, true, true, false⟩

/-- Concrete environment where connecting to the freshly created shadow
database fails and everything else succeeds. -/
def shConnFail : ShadowEnv := ⟨.ok "pdb", true, true, true, true, false, false⟩

/-- Concrete environment where dropping the stale shadow database fails. -/
def shDropFail : ShadowEnv := ⟨.ok "pdb", true, true, false, true, true, false⟩

/-- Concrete migrator configuration: demo directory, shadow manager present. -/
def cfgM : MigratorCfg := ⟨"m", some "u"⟩

/-- Concrete empty production database. -/
def prod0 : DBState := ⟨false, [], []⟩

/-- Concrete options with both fields set, for the environment-independence
analysis of `NewWithOptions`. -/
def optsC8 : Options := ⟨"m", "u", false⟩

/-- Concrete environment whose `MIGRATIONS_PATH` names a missing directory. -/
def envElse : Env := ⟨"elsewhere", ""⟩

/-- Concrete production database with one applied migration. -/
def prodC8 : DBState := ⟨true, ["001_a.sql"], ["A"]⟩

/-- The shadow trace of a run where connecting to the freshly created shadow
database fails. -/
def trConnFail : List Event :=
  (testNewMigrations execSimple envM fsDemo shConnFail [] [⟨"001_a.sql", "A"⟩]).2

/-- C1: `Tracker.ApplyMigration` is atomic.  Either the call fails and the
database state it leaves behind is exactly the pre-call state (transaction
rolled back: no script effect, no tracking row), or it succeeds and the state
is exactly the pre-call state with the script's schema update applied and the
one tracking row appended — never anything in between.  Moreover a script
execution failure is returned wrapped as `failed to execute migration: <err>`
with no state change, and a duplicate-name insert failure (the unique
constraint arbitrating a race) is likewise rolled back and surfaced. -/
theorem applyMigration_atomic (exec : ExecFn) (s : DBState) (nm ct : String) :
    (((∃ e, (applyMigration exec s nm ct).1 = Except.error e) ∧
        (applyMigration exec s nm ct).2 = s) ∨
      ((applyMigration exec s nm ct).1 = Except.ok () ∧
        ∃ sch2, exec ct s.schema = Except.ok sch2 ∧ s.hasTable = true ∧ nm ∉ s.applied ∧
          (applyMigration exec s nm ct).2 = ⟨true, s.applied ++ [nm], sch2⟩)) ∧
    (∀ e, exec ct s.schema = Except.error e →
      applyMigration exec s nm ct = (Except.error ("failed to execute migration: " ++ e), s)) ∧
    (∀ sch2, exec ct s.schema = Except.ok sch2 → s.hasTable = true → nm ∈ s.applied →
      applyMigration exec s nm ct =
        (Except.error
          ("failed to record migration: duplicate key value violates unique constraint"), s)) := by
  rcases hex : exec ct s.schema with e | sch2
  · refine ⟨Or.inl ⟨⟨"failed to execute migration: " ++ e, ?_⟩, ?_⟩, ?_, ?_⟩
    · simp [applyMigration, hex]
    · simp [applyMigration, hex]
    · intro e' he'
      injection he' with h
      subst h
      simp [applyMigration, hex]
    · intro sch2 hok
      exact absurd hok (by simp)
  · by_cases hT : s.hasTable = false
    · refine ⟨Or.inl ⟨⟨"failed to record migration: relation does not exist", ?_⟩, ?_⟩, ?_, ?_⟩
      · simp [applyMigration, hex, hT]
      · simp [applyMigration, hex, hT]
      · intro e' he'
        exact absurd he' (by simp)
      · intro sch2' _ hTrue _
        rw [hT] at hTrue
        exact absurd hTrue (by simp)
    · by_cases hm : nm ∈ s.applied
      · refine ⟨Or.inl ⟨⟨"failed to record migration: duplicate key value violates unique constraint",
          ?_⟩, ?_⟩, ?_, ?_⟩
        · simp [applyMigration, hex, hT, hm]
        · simp [applyMigration, hex, hT, hm]
        · intro e' he'
          exact absurd he' (by simp)
        · intro sch2' hok _ _
          injection hok with h
          subst h
          simp [applyMigration, hex, hT, hm]
      · refine ⟨Or.inr ⟨?_, sch2, rfl, ?_, hm, ?_⟩, ?_, ?_⟩
        · simp [applyMigration, hex, hT, hm]
        · simpa using hT
        · simp [applyMigration, hex, hT, hm]
        · intro e' he'
          exact absurd he' (by simp)
        · intro sch2' _ _ hmem
          exact absurd hmem hm

/-- C1 witness: the atomicity theorem applied to a failing script on a concrete
database: the wrapped error is returned and the state is untouched. -/
theorem applyMigration_atomic_witness :
    applyMigration execSimple ⟨true, [], []⟩ "001_a.sql" "FAIL" =
      (Except.error ("failed to execute migration: " ++ "syntax error"), ⟨true, [], []⟩) :=
  (applyMigration_atomic execSimple ⟨true, [], []⟩ "001_a.sql" "FAIL").2.1 "syntax error" rfl

/-- Inversion of a successful `applyMigration`: the call required the tracking
table and a fresh name, the script execution succeeded, and exactly one
tracking row was appended. -/
theorem applyMigration_ok_inv {exec : ExecFn} {s : DBState} {nm ct : String} {s2 : DBState}
    (h : applyMigration exec s nm ct = (Except.ok (), s2)) :
    s.hasTable = true ∧ nm ∉ s.applied ∧
      ∃ sch2, exec ct s.schema = Except.ok sch2 ∧ s2 = ⟨true, s.applied ++ [nm], sch2⟩ := by
  unfold applyMigration at h
  rcases hex : exec ct s.schema with e | sch2
  · rw [hex] at h
    simp at h
  · rw [hex] at h
    split_ifs at h with hT hm
    · simp at h
    · simp at h
    · refine ⟨by simpa using hT, hm, sch2, rfl, ?_⟩
      have h2 := congrArg Prod.snd h
      simpa using h2.symm

/-- Characterization of a successful production loop: the final applied list is
the initial one extended by exactly the names the loop's own moment-of-apply
check admitted, and the tracking-table flag is preserved. -/
theorem applyPending_ok_spec (exec : ExecFn) :
    ∀ (ms : List MigrationFile) (s s' : DBState),
      applyPendingMigrations exec s ms = (Except.ok (), s') →
      s'.applied = s.applied ++ pendingLoopSpec s.applied ms ∧ s'.hasTable = s.hasTable := by
  intro ms
  induction ms with
  | nil =>
    intro s s' h
    simp only [applyPendingMigrations] at h
    have h2 := congrArg Prod.snd h
    simp at h2
    subst h2
    simp [pendingLoopSpec]
  | cons m rest ih =>
    intro s s' h
    simp only [applyPendingMigrations] at h
    by_cases hm : m.name ∈ s.applied
    · rw [if_pos hm] at h
      rcases ih s s' h with ⟨h1, h2⟩
      simp [pendingLoopSpec, hm, h1, h2]
    · rw [if_neg hm] at h
      rcases hap : applyMigration exec s m.name m.content with ⟨r, s2⟩
      rw [hap] at h
      cases r with
      | error e => simp at h
      | ok u =>
        cases u
        rcases applyMigration_ok_inv hap with ⟨hT, -, sch2, -, hs2⟩
        rcases ih s2 s' h with ⟨h1, h2⟩
        subst hs2
        constructor
        · rw [h1]
          simp only [pendingLoopSpec, if_neg hm]
          rw [List.append_assoc]
          rfl
        · rw [h2, hT]

/-- A name already recorded as applied is never in the list of names the
production loop applies. -/
theorem pendingLoopSpec_not_mem {nm : String} :
    ∀ (ms : List MigrationFile) (applied : List String), nm ∈ applied →
      nm ∉ pendingLoopSpec applied ms := by
  intro ms
  induction ms with
  | nil =>
    intro applied _
    simp [pendingLoopSpec]
  | cons m rest ih =>
    intro applied hmem
    by_cases hm : m.name ∈ applied
    · simpa [pendingLoopSpec, hm] using ih applied hmem
    · have hne : nm ≠ m.name := fun he => hm (he ▸ hmem)
      simp only [pendingLoopSpec, if_neg hm, List.mem_cons]
      push_neg
      exact ⟨hne, ih (applied ++ [m.name]) (by simp [hmem])⟩

/-- Every name the production loop applies is the name of some input file. -/
theorem pendingLoopSpec_subset {nm : String} :
    ∀ (ms : List MigrationFile) (applied : List String),
      nm ∈ pendingLoopSpec applied ms → nm ∈ ms.map MigrationFile.name := by
  intro ms
  induction ms with
  | nil =>
    intro applied h
    simp [pendingLoopSpec] at h
  | cons m rest ih =>
    intro applied h
    by_cases hm : m.name ∈ applied
    · rw [pendingLoopSpec, if_pos hm] at h
      simp only [List.map_cons, List.mem_cons]
      exact Or.inr (ih applied h)
    · rw [pendingLoopSpec, if_neg hm] at h
      rcases List.mem_cons.mp h with he | ht
      · simp [he]
      · simp only [List.map_cons, List.mem_cons]
        exact Or.inr (ih (applied ++ [m.name]) ht)

/-- After the production loop, every input file's name is recorded. -/
theorem mem_append_pendingLoopSpec {m : MigrationFile} :
    ∀ (ms : List MigrationFile) (applied : List String), m ∈ ms →
      m.name ∈ applied ++ pendingLoopSpec applied ms := by
  intro ms
  induction ms with
  | nil =>
    intro applied h
    cases h
  | cons m0 rest ih =>
    intro applied h
    rcases List.mem_cons.mp h with he | ht
    · subst he
      by_cases hm : m.name ∈ applied
      · simp [pendingLoopSpec, hm]
      · simp [pendingLoopSpec, hm]
    · by_cases hm : m0.name ∈ applied
      · rw [pendingLoopSpec, if_pos hm]
        exact ih applied ht
      · rw [pendingLoopSpec, if_neg hm]
        have h2 := ih (applied ++ [m0.name]) ht
        simp only [List.mem_append, List.mem_cons, List.mem_singleton] at h2 ⊢
        tauto

/-- The production loop preserves distinctness of the applied names: a loop that
starts from a duplicate-free tracking relation leaves a duplicate-free one. -/
theorem pendingLoopSpec_nodup :
    ∀ (ms : List MigrationFile) (applied : List String), applied.Nodup →
      (applied ++ pendingLoopSpec applied ms).Nodup := by
  intro ms
  induction ms with
  | nil =>
    intro applied h
    simpa [pendingLoopSpec]
  | cons m rest ih =>
    intro applied h
    by_cases hm : m.name ∈ applied
    · simpa [pendingLoopSpec, hm] using ih applied h
    · have h2 : (applied ++ [m.name]).Nodup := by
        simp [List.nodup_append, h, hm]
      have h3 := ih (applied ++ [m.name]) h2
      rw [List.append_assoc] at h3
      simpa [pendingLoopSpec, hm] using h3

/-- A loop over migrations that are all already recorded applies nothing and
returns the state unchanged. -/
theorem applyPending_all_skipped (exec : ExecFn) :
    ∀ (ms : List MigrationFile) (s : DBState), (∀ m ∈ ms, m.name ∈ s.applied) →
      applyPendingMigrations exec s ms = (Except.ok (), s) := by
  intro ms
  induction ms with
  | nil =>
    intro s _
    rfl
  | cons m rest ih =>
    intro s h
    have hm : m.name ∈ s.applied := h m (List.mem_cons_self m rest)
    simp only [applyPendingMigrations, if_pos hm]
    exact ih s (fun m' hm' => h m' (List.mem_cons_of_mem m hm'))

/-- C9: `applyPendingMigrations` re-queries `IsApplied` for each migration of
its input list, in list order, immediately before applying it, and applies
exactly those for which that moment's check returns false
(`pendingLoopSpec`, which re-checks against the growing applied set).  In
particular a name recorded as applied before the loop reaches it — for example
by a concurrent run between the pending-set computation and the production
apply step — is skipped and never re-applied: its tracking-row count is
unchanged. -/
theorem applyPendingMigrations_recheck (exec : ExecFn) (ms : List MigrationFile)
    (s s' : DBState) (h : applyPendingMigrations exec s ms = (Except.ok (), s')) :
    s'.applied = s.applied ++ pendingLoopSpec s.applied ms ∧
    (∀ nm ∈ s.applied, nm ∉ pendingLoopSpec s.applied ms) ∧
    (∀ nm ∈ s.applied, List.count nm s'.applied = List.count nm s.applied) := by
  rcases applyPending_ok_spec exec ms s s' h with ⟨h1, -⟩
  refine ⟨h1, fun nm hmem => pendingLoopSpec_not_mem ms s.applied hmem,
    fun nm hmem => ?_⟩
  rw [h1, List.count_append]
  have h0 : List.count nm (pendingLoopSpec s.applied ms) = 0 :=
    List.count_eq_zero.mpr (pendingLoopSpec_not_mem ms s.applied hmem)
  omega

/-- C9 witness: on a list whose middle migration is already applied, the loop
applies exactly the first and third migrations, in order, and skips the
middle one. -/
theorem applyPendingMigrations_recheck_witness :
    (⟨true, ["002_b.sql", "001_a.sql", "003_c.sql"], ["A", "C"]⟩ : DBState).applied =
      (⟨true, ["002_b.sql"], []⟩ : DBState).applied ++
        pendingLoopSpec (⟨true, ["002_b.sql"], []⟩ : DBState).applied
          [⟨"001_a.sql", "A"⟩, ⟨"002_b.sql", "B"⟩, ⟨"003_c.sql", "C"⟩] :=
  (applyPendingMigrations_recheck execSimple
    [⟨"001_a.sql", "A"⟩, ⟨"002_b.sql", "B"⟩, ⟨"003_c.sql", "C"⟩]
    ⟨true, ["002_b.sql"], []⟩
    ⟨true, ["002_b.sql", "001_a.sql", "003_c.sql"], ["A", "C"]⟩ rfl).1

/-- The sorted-and-filtered directory listing is strictly sorted on names once
the raw listing's names are distinct (as directory entries always are). -/
theorem sortFilter_sorted_keyLtNe (raw : List (String × String))
    (hnd : (raw.map Prod.fst).Nodup) :
    List.Sorted keyLtNe ((sortByName raw).filter (fun f => endsWithSql f.1)) := by
  have hle : List.Pairwise keyLe ((sortByName raw).filter (fun f => endsWithSql f.1)) :=
    List.Pairwise.sublist (List.filter_sublist _) (List.sorted_insertionSort keyLe raw)
  have hps : ((sortByName raw).map Prod.fst).Perm (raw.map Prod.fst) :=
    (List.perm_insertionSort keyLe raw).map Prod.fst
  have hnd1 : ((sortByName raw).map Prod.fst).Nodup := hps.nodup_iff.mpr hnd
  have hnd2 : (((sortByName raw).filter (fun f => endsWithSql f.1)).map Prod.fst).Nodup :=
    List.Nodup.sublist (List.Sublist.map Prod.fst (List.filter_sublist _)) hnd1
  have hne : List.Pairwise (fun a b : String × String => a.1 ≠ b.1)
      ((sortByName raw).filter (fun f => endsWithSql f.1)) :=
    List.pairwise_map.mp hnd2
  exact (hle.and hne).imp (fun h => h)

/-- C5: for every readable directory, the loader returns one record — name and
literal content — for exactly the entries whose name ends in the recognized
`.sql` extension, in lexicographic name order; an empty directory yields the
empty list rather than an error; and when the entry names are distinct the
result is the same for any permutation of the on-disk listing order. -/
theorem getMigrationFiles_spec (fs : FileSys) (mp : String) (raw : List (String × String))
    (hlk : lookupDir fs mp = some raw) :
    ∃ ms, getMigrationFiles fs mp = Except.ok ms ∧
      (ms.map (fun m => (m.name, m.content))).Perm (raw.filter (fun f => endsWithSql f.1)) ∧
      ms.Pairwise (fun a b => nameLe a.name b.name = true) ∧
      (raw = [] → ms = []) ∧
      (∀ (fs2 : FileSys) (raw2 : List (String × String)), lookupDir fs2 mp = some raw2 →
        raw2.Perm raw → (raw.map Prod.fst).Nodup →
        getMigrationFiles fs2 mp = getMigrationFiles fs mp) := by
  refine ⟨((sortByName raw).filter (fun f => endsWithSql f.1)).map
    (fun f => ⟨f.1, f.2⟩), ?_, ?_, ?_, ?_, ?_⟩
  · simp [getMigrationFiles, readDir, hlk]
  · have hmm : (((sortByName raw).filter (fun f => endsWithSql f.1)).map
        (fun f => (⟨f.1, f.2⟩ : MigrationFile))).map (fun m => (m.name, m.content)) =
        (sortByName raw).filter (fun f => endsWithSql f.1) := by
      rw [List.map_map]
      exact List.map_id _
    rw [hmm]
    exact (List.perm_insertionSort keyLe raw).filter _
  · refine List.pairwise_map.mpr ?_
    exact List.Pairwise.sublist (List.filter_sublist _) (List.sorted_insertionSort keyLe raw)
  · intro h
    subst h
    rfl
  · intro fs2 raw2 hlk2 hperm hnd
    have hperm2 : ((sortByName raw2).filter (fun f => endsWithSql f.1)).Perm
        ((sortByName raw).filter (fun f => endsWithSql f.1)) := by
      refine ((List.perm_insertionSort keyLe raw2).filter _).trans ?_
      exact (hperm.filter _).trans ((List.perm_insertionSort keyLe raw).filter _).symm
    have hnd2 : (raw2.map Prod.fst).Nodup := ((hperm.map Prod.fst).nodup_iff).mpr hnd
    have heq : (sortByName raw2).filter (fun f => endsWithSql f.1) =
        (sortByName raw).filter (fun f => endsWithSql f.1) :=
      List.eq_of_perm_of_sorted hperm2 (sortFilter_sorted_keyLtNe raw2 hnd2)
        (sortFilter_sorted_keyLtNe raw hnd)
    simp [getMigrationFiles, readDir, hlk, hlk2, heq]

/-- C5 witness: the theorem applied to the demo directory, whose raw listing is
out of order and contains a non-SQL entry. -/
theorem getMigrationFiles_spec_witness :
    ∃ ms, getMigrationFiles fsDemo "m" = Except.ok ms ∧
      (ms.map (fun m => (m.name, m.content))).Perm
        ([("002_b.sql", "B"), ("001_a.sql", "A"), ("README.md", "doc")].filter
          (fun f => endsWithSql f.1)) ∧
      ms.Pairwise (fun a b => nameLe a.name b.name = true) ∧
      ([("002_b.sql", "B"), ("001_a.sql", "A"), ("README.md", "doc")] =
        ([] : List (String × String)) → ms = []) ∧
      (∀ (fs2 : FileSys) (raw2 : List (String × String)), lookupDir fs2 "m" = some raw2 →
        raw2.Perm [("002_b.sql", "B"), ("001_a.sql", "A"), ("README.md", "doc")] →
        ([("002_b.sql", "B"), ("001_a.sql", "A"), ("README.md", "doc")].map Prod.fst).Nodup →
        getMigrationFiles fs2 "m" = getMigrationFiles fsDemo "m") :=
  getMigrationFiles_spec fsDemo "m"
    [("002_b.sql", "B"), ("001_a.sql", "A"), ("README.md", "doc")] rfl

/-- Membership in the validator's set of on-disk names: a name is in the set
iff it ends in `.sql` and some raw directory entry bears exactly that name. -/
theorem mem_sortFilterNames_iff (raw : List (String × String)) (a : String) :
    a ∈ ((sortByName raw).filter (fun f => endsWithSql f.1)).map Prod.fst ↔
      (endsWithSql a = true ∧ a ∈ raw.map Prod.fst) := by
  constructor
  · intro h
    rcases List.mem_map.mp h with ⟨f, hf, hfa⟩
    rcases List.mem_filter.mp hf with ⟨hfsort, hsql⟩
    refine ⟨hfa ▸ hsql, ?_⟩
    exact List.mem_map.mpr ⟨f, ((List.perm_insertionSort keyLe raw).mem_iff).mp hfsort, hfa⟩
  · rintro ⟨hsql, hmem⟩
    rcases List.mem_map.mp hmem with ⟨f, hf, hfa⟩
    refine List.mem_map.mpr ⟨f, ?_, hfa⟩
    refine List.mem_filter.mpr ⟨?_, ?_⟩
    · exact ((List.perm_insertionSort keyLe raw).mem_iff).mpr hf
    · rw [hfa]
      exact hsql

/-- The validator's internally computed missing list equals `missingOf`: the
applied names with no `.sql` file of that exact name on disk. -/
theorem validate_missing_eq (raw : List (String × String)) (applied : List String) :
    applied.filter (fun a => decide (a ∉ ((sortByName raw).filter
        (fun f => endsWithSql f.1)).map Prod.fst)) = missingOf raw applied := by
  apply List.filter_congr
  intro a _
  by_cases h : a ∈ ((sortByName raw).filter (fun f => endsWithSql f.1)).map Prod.fst
  · rcases (mem_sortFilterNames_iff raw a).mp h with ⟨h1, h2⟩
    simp [missingOf, h, h1, h2]
  · have h3 : ¬(endsWithSql a = true ∧ a ∈ raw.map Prod.fst) := fun hc =>
      h ((mem_sortFilterNames_iff raw a).mpr hc)
    by_cases he : endsWithSql a = true
    · have hm : a ∉ raw.map Prod.fst := fun hc => h3 ⟨he, hc⟩
      simp [missingOf, h, he, hm]
    · simp [missingOf, h, he]

/-- Outcome of `ValidateExistingMigrations` on a readable directory: success
when no applied name is missing from disk, else the error listing exactly the
missing names. -/
theorem validate_error_iff (fs : FileSys) (mp : String) (raw : List (String × String))
    (applied : List String) (hlk : lookupDir fs mp = some raw) :
    validateExistingMigrations fs mp applied =
      (if missingOf raw applied = [] then Except.ok ()
       else Except.error (critMsg (missingOf raw applied))) := by
  unfold validateExistingMigrations
  rw [readDir, hlk]
  simp only [Option.map_some']
  rw [validate_missing_eq]
  by_cases hm : missingOf raw applied = []
  · simp [hm]
  · simp only [if_neg hm]
    rw [if_neg]
    intro hc
    exact hm (List.isEmpty_iff.mp hc)

/-- C3: when at least one applied migration name has no on-disk `.sql` file of
that exact name, validation fails with the error listing exactly those names
(an applied name is reported iff it has no `.sql` file of that name), and
`Migrate` aborts at the validation step: the production database is unchanged
apart from step 1's tracking-table creation, and no shadow-side event
happens. -/
theorem migrate_missingFileGuard (cfg : MigratorCfg) (env : Env) (fs : FileSys)
    (sh : ShadowEnv) (prod : DBState) (raw : List (String × String))
    (hlk : lookupDir fs cfg.migrationsPath = some raw)
    (hm : missingOf raw prod.applied ≠ []) :
    validateExistingMigrations fs cfg.migrationsPath prod.applied =
      Except.error (critMsg (missingOf raw prod.applied)) ∧
    ∀ exec, migrate exec cfg env fs sh prod =
      (Except.error ("migration validation failed: " ++ critMsg (missingOf raw prod.applied)),
       { prod with hasTable := true }, []) := by
  have hv : validateExistingMigrations fs cfg.migrationsPath prod.applied =
      Except.error (critMsg (missingOf raw prod.applied)) := by
    rw [validate_error_iff fs cfg.migrationsPath raw prod.applied hlk, if_neg hm]
  refine ⟨hv, fun exec => ?_⟩
  simp only [migrate]
  rw [hv]

/-- C3 witness: the guard applied to a database whose applied entry
`ghost.sql` has no file on disk. -/
theorem migrate_missingFileGuard_witness :
    validateExistingMigrations fsDemo "m" ["001_a.sql", "ghost.sql"] =
      Except.error (critMsg ["ghost.sql"]) :=
  (migrate_missingFileGuard cfgM envM fsDemo shOk ⟨true, ["001_a.sql", "ghost.sql"], ["A"]⟩
    [("002_b.sql", "B"), ("001_a.sql", "A"), ("README.md", "doc")] rfl (by decide)).1

/-- C2: when shadow testing is enabled (a shadow manager is configured) and the
shadow test of the pending changes fails, `Migrate` returns the wrapped shadow
error and production gains nothing: the returned production state is the input
state with only step 1's tracking-table flag set — zero new applied entries and
zero new schema objects. -/
theorem migrate_shadowGate (exec : ExecFn) (cfg : MigratorCfg) (env : Env) (fs : FileSys)
    (sh : ShadowEnv) (prod : DBState) (files : List MigrationFile) (e : String)
    (tr : List Event)
    (hv : validateExistingMigrations fs cfg.migrationsPath prod.applied = Except.ok ())
    (hf : getMigrationFiles fs cfg.migrationsPath = Except.ok files)
    (hs : cfg.shadowURL.isSome = true)
    (ht : testNewMigrations exec env fs sh prod.applied (findNewMigrations prod.applied files) =
      (Except.error e, tr)) :
    migrate exec cfg env fs sh prod =
      (Except.error ("shadow database test failed: " ++ e),
       { prod with hasTable := true }, tr) := by
  have hn : findNewMigrations prod.applied files ≠ [] := by
    intro hc
    rw [hc] at ht
    simp [testNewMigrations] at ht
  have hd : decide (findNewMigrations prod.applied files ≠ []) = true := decide_eq_true hn
  have hrun : (decide (findNewMigrations prod.applied files ≠ []) &&
      (cfg.shadowURL.isSome ||
        (decide (findNewMigrations prod.applied files ≠ []) &&
          decide (env.databaseURLEnv ≠ "")))) = true := by
    rw [hd, hs]
    rfl
  simp only [migrate, hv, hf]
  rw [if_pos hrun, ht]

/-- C2 witness: the gate applied to a concrete run whose second pending change
fails on the shadow database: the wrapped shadow error comes back and the
production state keeps zero applied entries and zero schema objects. -/
theorem migrate_shadowGate_witness :
    migrate execSimple cfgM envM fsFail shOk prod0 =
      (Except.error ("shadow database test failed: " ++
        "failed to test migrations on shadow: migration 002_b.sql failed on shadow database: failed to execute migration: syntax error"),
       { prod0 with hasTable := true },
       [Event.getDBName, Event.connectAdmin, Event.terminateConns "pdb_gi_mig_shadow_db",
        Event.dropDB "pdb_gi_mig_shadow_db", Event.createDB "pdb_gi_mig_shadow_db",
        Event.connectShadow "pdb_gi_mig_shadow_db", Event.testApply "001_a.sql",
        Event.testApply "002_b.sql", Event.closeShadow,
        Event.terminateConns "pdb_gi_mig_shadow_db", Event.dropDB "pdb_gi_mig_shadow_db"]) :=
  migrate_shadowGate execSimple cfgM envM fsFail shOk prod0
    [⟨"001_a.sql", "A"⟩, ⟨"002_b.sql", "FAIL"⟩]
    "failed to test migrations on shadow: migration 002_b.sql failed on shadow database: failed to execute migration: syntax error"
    [Event.getDBName, Event.connectAdmin, Event.terminateConns "pdb_gi_mig_shadow_db",
     Event.dropDB "pdb_gi_mig_shadow_db", Event.createDB "pdb_gi_mig_shadow_db",
     Event.connectShadow "pdb_gi_mig_shadow_db", Event.testApply "001_a.sql",
     Event.testApply "002_b.sql", Event.closeShadow,
     Event.terminateConns "pdb_gi_mig_shadow_db", Event.dropDB "pdb_gi_mig_shadow_db"]
    rfl rfl rfl rfl

/-- C6 counterexample: a failure of the terminate-connections step does not
abort shadow provisioning — `dropDatabaseIfExists` only prints a warning and
carries on (shadowdb.go lines 255-262), so the very same run completes the
whole shadow test successfully.  This refutes the claim that a failure of any
provisioning step (terminate included) aborts with a setup error. -/
theorem shadowSetup_terminate_counter :
    shTermFail.terminateOk = false ∧
    (testNewMigrations execSimple envM fsDemo shTermFail [] [⟨"001_a.sql", "A"⟩]).1 =
      Except.ok () :=
  ⟨rfl, rfl⟩

/-- C6 amended: a failure of the drop, create, or connect-to-shadow step of
provisioning aborts the shadow test with the wrapped setup error before any
migration is replayed or tested (the trace holds no replay and no test event;
the production database is only ever read by `TestNewMigrations`, never
written).  A failure of the terminate-connections step, by contrast, is only
warned about and does not abort (see the counterexample). -/
theorem shadowSetup_failureAborts (exec : ExecFn) (env : Env) (fs : FileSys)
    (sh : ShadowEnv) (prodApplied : List String) (newMs : List MigrationFile) (dbName : String)
    (hne : newMs ≠ [])
    (hdb : sh.currentDB = Except.ok dbName)
    (hadmin : sh.connectAdminOk = true)
    (hfail : sh.dropOk = false ∨ sh.createOk = false ∨ sh.connectShadowOk = false) :
    ∃ e tr, testNewMigrations exec env fs sh prodApplied newMs =
        (Except.error ("failed to setup shadow database: " ++ e), tr) ∧
      tr.all (fun ev => !(isReplayOrTest ev)) = true := by
  have hlen : ¬ newMs.length = 0 := by
    simpa [List.length_eq_zero] using hne
  by_cases hdrop : sh.dropOk = false
  · refine ⟨"failed to drop existing shadow database: failed to drop database " ++
        (dbName ++ "_gi_mig_shadow_db"),
      [Event.getDBName, Event.connectAdmin,
       Event.terminateConns (dbName ++ "_gi_mig_shadow_db"),
       Event.dropDB (dbName ++ "_gi_mig_shadow_db")], ?_, rfl⟩
    simp [testNewMigrations, setupShadowDatabase, hdb, hlen, hadmin, hdrop]
  · by_cases hcreate : sh.createOk = false
    · refine ⟨"failed to create shadow database: failed to create database " ++
          (dbName ++ "_gi_mig_shadow_db"),
        [Event.getDBName, Event.connectAdmin,
         Event.terminateConns (dbName ++ "_gi_mig_shadow_db"),
         Event.dropDB (dbName ++ "_gi_mig_shadow_db"),
         Event.createDB (dbName ++ "_gi_mig_shadow_db")], ?_, rfl⟩
      simp [testNewMigrations, setupShadowDatabase, hdb, hlen, hadmin, hdrop, hcreate]
    · by_cases hconn : sh.connectShadowOk = false
      · refine ⟨"failed to connect to shadow database: open error",
          [Event.getDBName, Event.connectAdmin,
           Event.terminateConns (dbName ++ "_gi_mig_shadow_db"),
           Event.dropDB (dbName ++ "_gi_mig_shadow_db"),
           Event.createDB (dbName ++ "_gi_mig_shadow_db"),
           Event.connectShadow (dbName ++ "_gi_mig_shadow_db")], ?_, rfl⟩
        simp [testNewMigrations, setupShadowDatabase, hdb, hlen, hadmin, hdrop, hcreate, hconn]
      · rcases hfail with h | h | h
        · exact absurd h hdrop
        · exact absurd h hcreate
        · exact absurd h hconn

/-- C6 amended witness: the amended theorem at a concrete run whose DROP of the
stale shadow database fails. -/
theorem shadowSetup_failureAborts_witness :
    ∃ e tr, testNewMigrations execSimple envM fsDemo shDropFail [] [⟨"001_a.sql", "A"⟩] =
        (Except.error ("failed to setup shadow database: " ++ e), tr) ∧
      tr.all (fun ev => !(isReplayOrTest ev)) = true :=
  shadowSetup_failureAborts execSimple envM fsDemo shDropFail [] [⟨"001_a.sql", "A"⟩]
    "pdb" (by decide) rfl rfl (Or.inl rfl)

/-- The replay loop emits only replay events — in particular never a CREATE
DATABASE event. -/
theorem noCreate_replayGo (exec : ExecFn) (fs : FileSys) (mp : String) :
    ∀ (l : List String) (st : DBState) (n : String),
      Event.createDB n ∉ (replayGo exec fs mp l st).2 := by
  intro l
  induction l with
  | nil =>
    intro st n
    simp [replayGo]
  | cons nm rest ih =>
    intro st n
    simp only [replayGo]
    rcases hrd : readMigrationFile fs mp nm with - | ct
    · simp
    · rcases hap : applyMigration exec st nm ct with ⟨r, st2⟩
      cases r with
      | error e => simp [hap]
      | ok u => simpa [hap] using ih st2 n

/-- The test loop emits only test events — never a CREATE DATABASE event. -/
theorem noCreate_testGo (exec : ExecFn) :
    ∀ (ms : List MigrationFile) (st : DBState) (n : String),
      Event.createDB n ∉ (testGo exec ms st).2 := by
  intro ms
  induction ms with
  | nil =>
    intro st n
    simp [testGo]
  | cons m rest ih =>
    intro st n
    simp only [testGo]
    rcases hap : applyMigration exec st m.name m.content with ⟨r, st2⟩
    cases r with
    | error e => simp [hap]
    | ok u => simpa [hap] using ih st2 n

/-- A prefix without CREATE DATABASE events does not affect the
create-followed-by-drop trace property. -/
theorem everyCreateDropped_append (l1 l2 : List Event)
    (h : ∀ n, Event.createDB n ∉ l1) :
    everyCreateDropped (l1 ++ l2) = everyCreateDropped l2 := by
  induction l1 with
  | nil => rfl
  | cons e rest ih =>
    have h2 : ∀ n, Event.createDB n ∉ rest := fun n hn => h n (List.mem_cons_of_mem e hn)
    cases e with
    | createDB n => exact absurd (List.mem_cons_self _ _) (h n)
    | getDBName => simpa [everyCreateDropped] using ih h2
    | connectAdmin => simpa [everyCreateDropped] using ih h2
    | terminateConns m => simpa [everyCreateDropped] using ih h2
    | dropDB m => simpa [everyCreateDropped] using ih h2
    | connectShadow m => simpa [everyCreateDropped] using ih h2
    | closeShadow => simpa [everyCreateDropped] using ih h2
    | replayApply m => simpa [everyCreateDropped] using ih h2
    | testApply m => simpa [everyCreateDropped] using ih h2

/-- On any trace of a fully provisioned run — the provisioning prefix, then a
creation-free middle section, then the deferred cleanup — every created shadow
database is dropped later in the trace. -/
theorem everyCreateDropped_run (sn : String) (mid : List Event)
    (hmid : ∀ n, Event.createDB n ∉ mid) :
    everyCreateDropped (Event.getDBName :: [Event.connectAdmin, Event.terminateConns sn,
      Event.dropDB sn, Event.createDB sn, Event.connectShadow sn] ++
      (mid ++ cleanupEvents sn)) = true := by
  have hmem : Event.dropDB sn ∈ Event.connectShadow sn :: (mid ++ cleanupEvents sn) := by
    simp [cleanupEvents]
  show everyCreateDropped (Event.getDBName :: Event.connectAdmin :: Event.terminateConns sn ::
    Event.dropDB sn :: Event.createDB sn :: Event.connectShadow sn ::
    (mid ++ cleanupEvents sn)) = true
  simp only [everyCreateDropped, hmem, if_true]
  rw [everyCreateDropped_append mid (cleanupEvents sn) hmid]
  rfl

/-- Shape of the trace of a run whose provisioning succeeded: the
`current_database()` query, the provisioning events, a middle section made of
replay and test events only, and the deferred cleanup. -/
theorem testNewMigrations_trace_shape (exec : ExecFn) (env : Env) (fs : FileSys)
    (sh : ShadowEnv) (prodApplied : List String) (newMs : List MigrationFile)
    (dbName : String) (evs : List Event)
    (hlen : ¬ newMs.length = 0) (hdb : sh.currentDB = Except.ok dbName)
    (hsetup : setupShadowDatabase sh (dbName ++ "_gi_mig_shadow_db") = (Except.ok (), evs)) :
    ∃ mid, (∀ n, Event.createDB n ∉ mid) ∧
      (testNewMigrations exec env fs sh prodApplied newMs).2 =
        Event.getDBName :: evs ++ (mid ++ cleanupEvents (dbName ++ "_gi_mig_shadow_db")) := by
  rcases hrep : replayGo exec fs (if env.migrationsPathEnv = "" then "./migrations"
      else env.migrationsPathEnv) prodApplied ⟨true, [], []⟩ with ⟨r, revs⟩
  have hncr : ∀ n, Event.createDB n ∉ revs := by
    intro n
    have h0 := noCreate_replayGo exec fs (if env.migrationsPathEnv = "" then "./migrations"
      else env.migrationsPathEnv) prodApplied ⟨true, [], []⟩ n
    rw [hrep] at h0
    exact h0
  cases r with
  | error e =>
    refine ⟨revs, hncr, ?_⟩
    simp [testNewMigrations, hdb, hlen, hsetup, hrep, List.append_assoc]
  | ok st1 =>
    rcases htst : testGo exec newMs st1 with ⟨r2, tevs⟩
    have hnct : ∀ n, Event.createDB n ∉ tevs := by
      intro n
      have h0 := noCreate_testGo exec newMs st1 n
      rw [htst] at h0
      exact h0
    refine ⟨revs ++ tevs, ?_, ?_⟩
    · intro n
      simp only [List.mem_append]
      push_neg
      exact ⟨hncr n, hnct n⟩
    · cases r2 <;> simp [testNewMigrations, hdb, hlen, hsetup, hrep, htst, List.append_assoc]

/-- C7 counterexample: with database creation succeeding and the connection to
the freshly created shadow database failing, `setupShadowDatabase` returns the
error without running or registering any cleanup (shadowdb.go lines 113-117),
so the testing pass returns with the created shadow database never dropped:
the trace contains the create event and no drop attempt after it. -/
theorem shadowDrop_connect_counter :
    Event.createDB "pdb_gi_mig_shadow_db" ∈ trConnFail ∧
      everyCreateDropped trConnFail = false := by
  decide

/-- C7 amended: on every invocation of the shadow tester in which the shadow
database is created AND the subsequent connection to it succeeds, a drop of the
shadow database is attempted before the testing pass returns, on every exit
path — success, replay failure, or test failure alike.  In the one remaining
exit path, where the connection to the freshly created shadow database fails,
no drop is attempted (see the counterexample). -/
theorem testNewMigrations_dropAfterCreate (exec : ExecFn) (env : Env) (fs : FileSys)
    (sh : ShadowEnv) (prodApplied : List String) (newMs : List MigrationFile)
    (hcreate : sh.createOk = true) (hconn : sh.connectShadowOk = true) :
    everyCreateDropped (testNewMigrations exec env fs sh prodApplied newMs).2 = true := by
  by_cases hlen : newMs.length = 0
  · simp [testNewMigrations, hlen, everyCreateDropped]
  rcases hdbe : sh.currentDB with e | dbName
  · simp [testNewMigrations, hlen, hdbe, everyCreateDropped]
  by_cases hadmin : sh.connectAdminOk = false
  · simp [testNewMigrations, hlen, hdbe, setupShadowDatabase, hadmin, everyCreateDropped]
  by_cases hdropF : sh.dropOk = false
  · simp [testNewMigrations, hlen, hdbe, setupShadowDatabase, hadmin, hdropF,
      everyCreateDropped]
  · have hsetup : setupShadowDatabase sh (dbName ++ "_gi_mig_shadow_db") =
        (Except.ok (), [Event.connectAdmin,
          Event.terminateConns (dbName ++ "_gi_mig_shadow_db"),
          Event.dropDB (dbName ++ "_gi_mig_shadow_db"),
          Event.createDB (dbName ++ "_gi_mig_shadow_db"),
          Event.connectShadow (dbName ++ "_gi_mig_shadow_db")]) := by
      simp [setupShadowDatabase, hadmin, hdropF, hcreate, hconn]
    rcases testNewMigrations_trace_shape exec env fs sh prodApplied newMs dbName _
      hlen hdbe hsetup with ⟨mid, hmid, htr⟩
    rw [htr]
    exact everyCreateDropped_run (dbName ++ "_gi_mig_shadow_db") mid hmid

/-- C7 amended witness: the amended theorem at a concrete run (all shadow-side
operations succeed, one new migration): its trace drops the created shadow
database. -/
theorem testNewMigrations_dropAfterCreate_witness :
    everyCreateDropped
      (testNewMigrations execSimple envM fsDemo shOk [] [⟨"001_a.sql", "A"⟩]).2 = true :=
  testNewMigrations_dropAfterCreate execSimple envM fsDemo shOk [] [⟨"001_a.sql", "A"⟩]
    rfl rfl

/-- C8: the engine is NOT independent of the ambient process environment even
when `NewWithOptions` receives a non-empty `MigrationsPath` and a non-empty
`DatabaseURL`.  The two environments differ only in the `MIGRATIONS_PATH`
variable, `NewWithOptions` produces the identical configuration for both (the
options win over the environment), yet `Migrate` succeeds under one environment
and fails under the other, because `applyExistingMigrationsToShadow`
(shadowdb.go lines 143-147) reads `MIGRATIONS_PATH` from the environment
unconditionally, ignoring the configured path, when it re-reads the applied
migrations' bodies for the shadow replay. -/
theorem migrate_env_dependence :
    newWithOptions optsC8 envM = newWithOptions optsC8 envElse ∧
    (migrate execSimple (newWithOptions optsC8 envM) envM fsDemo shOk prodC8).1 =
      Except.ok () ∧
    (migrate execSimple (newWithOptions optsC8 envElse) envElse fsDemo shOk prodC8).1 =
      Except.error
        "shadow database test failed: failed to apply existing migrations to shadow: failed to read migration 001_a.sql: open error" :=
  ⟨rfl, rfl, rfl⟩

/-- A readable directory is a prerequisite of successful validation. -/
theorem validate_ok_readDir {fs : FileSys} {mp : String} {applied : List String}
    (hv : validateExistingMigrations fs mp applied = Except.ok ()) :
    ∃ raw, lookupDir fs mp = some raw := by
  rcases hlk : lookupDir fs mp with - | raw
  · exfalso
    unfold validateExistingMigrations readDir at hv
    rw [hlk] at hv
    simp at hv
  · exact ⟨raw, rfl⟩

/-- Successful validation means every applied name is the name of an on-disk
`.sql` entry. -/
theorem validate_ok_names {fs : FileSys} {mp : String} {applied : List String}
    {raw : List (String × String)} (hlk : lookupDir fs mp = some raw)
    (hv : validateExistingMigrations fs mp applied = Except.ok ()) :
    ∀ a ∈ applied, endsWithSql a = true ∧ a ∈ raw.map Prod.fst := by
  have h := validate_error_iff fs mp raw applied hlk
  rw [hv] at h
  by_cases hm : missingOf raw applied = []
  · intro a ha
    have h2 := List.filter_eq_nil_iff.mp hm a ha
    simpa using h2
  · rw [if_neg hm] at h
    exact absurd h (by simp)

/-- Conversely, validation succeeds when every applied name is the name of an
on-disk `.sql` entry. -/
theorem validate_ok_of_names {fs : FileSys} {mp : String} {applied : List String}
    {raw : List (String × String)} (hlk : lookupDir fs mp = some raw)
    (h : ∀ a ∈ applied, endsWithSql a = true ∧ a ∈ raw.map Prod.fst) :
    validateExistingMigrations fs mp applied = Except.ok () := by
  have hm : missingOf raw applied = [] := by
    apply List.filter_eq_nil_iff.mpr
    intro a ha
    rcases h a ha with ⟨h1, h2⟩
    simp [h1, h2]
  rw [validate_error_iff fs mp raw applied hlk, if_pos hm]

/-- Every loaded migration file's name is the `.sql`-suffixed name of a raw
directory entry. -/
theorem getFiles_names {fs : FileSys} {mp : String} {files : List MigrationFile}
    {raw : List (String × String)} (hlk : lookupDir fs mp = some raw)
    (hf : getMigrationFiles fs mp = Except.ok files) :
    ∀ m ∈ files, endsWithSql m.name = true ∧ m.name ∈ raw.map Prod.fst := by
  have h0 : getMigrationFiles fs mp = Except.ok
      (((sortByName raw).filter (fun f => endsWithSql f.1)).map (fun f => ⟨f.1, f.2⟩)) := by
    simp [getMigrationFiles, readDir, hlk]
  rw [h0] at hf
  injection hf with h1
  subst h1
  intro m hm
  rcases List.mem_map.mp hm with ⟨f, hf2, hfm⟩
  rcases List.mem_filter.mp hf2 with ⟨hsort, hsql⟩
  subst hfm
  refine ⟨hsql, ?_⟩
  exact List.mem_map.mpr ⟨f, ((List.perm_insertionSort keyLe raw).mem_iff).mp hsort, rfl⟩

/-- Setting the tracking-table flag of a state that already has it is the
identity. -/
theorem dbstate_set_hasTable_eq {s : DBState} (h : s.hasTable = true) :
    { s with hasTable := true } = s := by
  cases s with
  | mk a b c =>
    simp only at h
    rw [← h]

/-- Inversion of a successful `Migrate` run: validation succeeded, the files
loaded, and the production loop succeeded producing the final state (whatever
the shadow branch did). -/
theorem migrate_ok_inv {exec : ExecFn} {cfg : MigratorCfg} {env : Env} {fs : FileSys}
    {sh : ShadowEnv} {prod s' : DBState} {tr : List Event}
    (h : migrate exec cfg env fs sh prod = (Except.ok (), s', tr)) :
    validateExistingMigrations fs cfg.migrationsPath prod.applied = Except.ok () ∧
    ∃ files, getMigrationFiles fs cfg.migrationsPath = Except.ok files ∧
      applyPendingMigrations exec { prod with hasTable := true } files =
        (Except.ok (), s') := by
  simp only [migrate] at h
  rcases hv : validateExistingMigrations fs cfg.migrationsPath prod.applied with e | u
  · simp [hv] at h
  · cases u
    rcases hf : getMigrationFiles fs cfg.migrationsPath with e | files
    · simp [hv, hf] at h
    · refine ⟨rfl, files, rfl, ?_⟩
      simp only [hv, hf] at h
      rcases hts : testNewMigrations exec env fs sh prod.applied
          (findNewMigrations prod.applied files) with ⟨rt, trt⟩
      rcases hap : applyPendingMigrations exec { prod with hasTable := true } files
        with ⟨ra, s6⟩
      rw [hts, hap] at h
      by_cases hrt : (decide (findNewMigrations prod.applied files ≠ []) &&
          (cfg.shadowURL.isSome || (decide (findNewMigrations prod.applied files ≠ []) &&
            decide (env.databaseURLEnv ≠ "")))) = true
      · rw [if_pos hrt] at h
        cases rt with
        | error e => simp at h
        | ok u2 =>
          cases ra with
          | error e => simp at h
          | ok u3 =>
            cases u3
            injection h with h1 h2
            injection h2 with h3 h4
            rw [h3]
      · rw [if_neg hrt] at h
        cases ra with
        | error e => simp at h
        | ok u3 =>
          cases u3
          injection h with h1 h2
          injection h2 with h3 h4
          rw [h3]

/-- C4: `Migrate` is idempotent.  After a successful run over an unchanged
change set, a second invocation succeeds, applies no migration (every
per-migration `IsApplied` check returns true, so the production state is
returned unchanged), and every loaded change has exactly one applied entry —
one, not two. -/
theorem migrate_idempotent (exec : ExecFn) (cfg : MigratorCfg) (env : Env) (fs : FileSys)
    (sh : ShadowEnv) (prod s1 : DBState) (tr1 : List Event)
    (hnd : prod.applied.Nodup)
    (h1 : migrate exec cfg env fs sh prod = (Except.ok (), s1, tr1)) :
    (∃ tr2, migrate exec cfg env fs sh s1 = (Except.ok (), s1, tr2)) ∧
    s1.applied.Nodup ∧
    (∀ files, getMigrationFiles fs cfg.migrationsPath = Except.ok files →
      ∀ m ∈ files, List.count m.name s1.applied = 1) := by
  rcases migrate_ok_inv h1 with ⟨hv1, files, hf, hap⟩
  rcases validate_ok_readDir hv1 with ⟨raw, hlk⟩
  rcases applyPending_ok_spec exec files { prod with hasTable := true } s1 hap
    with ⟨hs1app0, hs1T0⟩
  have hs1app : s1.applied = prod.applied ++ pendingLoopSpec prod.applied files := hs1app0
  have hs1T : s1.hasTable = true := hs1T0
  have hgood : ∀ a ∈ s1.applied, endsWithSql a = true ∧ a ∈ raw.map Prod.fst := by
    intro a ha
    rw [hs1app] at ha
    rcases List.mem_append.mp ha with h | h
    · exact validate_ok_names hlk hv1 a h
    · have h2 := pendingLoopSpec_subset files prod.applied h
      rcases List.mem_map.mp h2 with ⟨m, hm, hma⟩
      have h3 := getFiles_names hlk hf m hm
      rw [← hma]
      exact h3
  have hv2 : validateExistingMigrations fs cfg.migrationsPath s1.applied = Except.ok () :=
    validate_ok_of_names hlk hgood
  have hall : ∀ m ∈ files, m.name ∈ s1.applied := by
    intro m hm
    rw [hs1app]
    exact mem_append_pendingLoopSpec files prod.applied hm
  have hnew2 : findNewMigrations s1.applied files = [] := by
    apply List.filter_eq_nil_iff.mpr
    intro m hm
    simp [hall m hm]
  have hnd1 : s1.applied.Nodup := by
    rw [hs1app]
    exact pendingLoopSpec_nodup files prod.applied hnd
  have heq1 : { s1 with hasTable := true } = s1 := dbstate_set_hasTable_eq hs1T
  have hap2 : applyPendingMigrations exec { s1 with hasTable := true } files =
      (Except.ok (), s1) := by
    rw [heq1]
    exact applyPending_all_skipped exec files s1 hall
  refine ⟨⟨(if cfg.shadowURL.isSome = true then ensureCleanupEvents sh none else []),
    ?_⟩, hnd1, ?_⟩
  · simp only [migrate, hv2, hf]
    have hd : decide (findNewMigrations s1.applied files ≠ []) = false := by
      simp [hnew2]
    have hcond : ¬ ((decide (findNewMigrations s1.applied files ≠ []) &&
        (cfg.shadowURL.isSome || (decide (findNewMigrations s1.applied files ≠ []) &&
          decide (env.databaseURLEnv ≠ "")))) = true) := by
      rw [hd]
      simp
    rw [if_neg hcond, hap2]
    simp [hnew2]
  · intro files2 hf2
    rw [hf] at hf2
    injection hf2 with h2
    subst h2
    intro m hm
    exact List.count_eq_one_of_mem hnd1 (hall m hm)

/-- C4 witness: the idempotence theorem at the concrete demo run — a first run
from the empty database applies both demo migrations, and the state after that
run is a fixed point with exactly one applied entry per change. -/
theorem migrate_idempotent_witness :
    (∃ tr2, migrate execSimple cfgM envM fsDemo shOk
        ⟨true, ["001_a.sql", "002_b.sql"], ["A", "B"]⟩ =
      (Except.ok (), ⟨true, ["001_a.sql", "002_b.sql"], ["A", "B"]⟩, tr2)) ∧
    (⟨true, ["001_a.sql", "002_b.sql"], ["A", "B"]⟩ : DBState).applied.Nodup ∧
    (∀ files, getMigrationFiles fsDemo "m" = Except.ok files →
      ∀ m ∈ files, List.count m.name
        (⟨true, ["001_a.sql", "002_b.sql"], ["A", "B"]⟩ : DBState).applied = 1) :=
  migrate_idempotent execSimple cfgM envM fsDemo shOk prod0
    ⟨true, ["001_a.sql", "002_b.sql"], ["A", "B"]⟩
    [Event.getDBName, Event.connectAdmin, Event.terminateConns "pdb_gi_mig_shadow_db",
     Event.dropDB "pdb_gi_mig_shadow_db", Event.createDB "pdb_gi_mig_shadow_db",
     Event.connectShadow "pdb_gi_mig_shadow_db", Event.testApply "001_a.sql",
     Event.testApply "002_b.sql", Event.closeShadow,
     Event.terminateConns "pdb_gi_mig_shadow_db", Event.dropDB "pdb_gi_mig_shadow_db",
     Event.connectAdmin]
    List.nodup_nil rfl

/-- C10: `TestNewMigrations` with an empty list of new migrations returns
success immediately: no `current_database()` query, no administrative
connection, no create, drop, replay or test — the event trace is empty. -/
theorem testNewMigrations_emptyNew (exec : ExecFn) (env : Env) (fs : FileSys) (sh : ShadowEnv)
    (prodApplied : List String) :
    testNewMigrations exec env fs sh prodApplied [] = (Except.ok (), ([] : List Event)) := rfl

end Migrator
